import Mathlib

/-!
Shallow embedding of the sharded read/query layer in `src/controller/getter.rs`:
the protocol envelope (`ReadQuery`, `ReadReply`, `LocalOrNot`), the remote view
client (`RemoteGetter`) with its fan-out/fan-in over shards, and the local view
client (`Getter`) with its transactional timestamp tracker `last_ts`.

External collaborators (the RPC transport, the backlog storage, the shard router
and the checktable token generator) are modelled at their interface boundary:
shard endpoints become a function from shard index and envelope to reply envelope,
backlog probes become explicit probe-outcome values threaded into the local
client's operations, and operations additionally return the ordered trace of
queries they sent, so that fan-out behaviour is observable.
-/

namespace Noria

/-! ### Data model -/

abbrev DataType := Nat

/-- Deep copy of a `DataType` (`DataType::deep_clone`); values are opaque to this
layer, so the copy is structurally the identity here. -/
def DataType.deep_clone (d : DataType) : DataType := d

abbrev Row := List DataType

/-- `Datas = Vec<Vec<DataType>>`: the row set returned for one key. -/
abbrev Datas := List Row

abbrev Key := List DataType

abbrev NodeIndex := Nat

/-- Modelled from the spec: a `ConsistencyToken` is an opaque value bound to a
Timestamp and a Key, issued by the external checktable token generator. -/
structure Token where
  ts : Int
  key : Key
deriving DecidableEq

/-- Modelled from the spec: the external token-generator handle
(`checktable::TokenGenerator`); the only capability consumed by this layer is
`generate(Timestamp, Key) -> ConsistencyToken`. -/
inductive TokenGenerator where
  | mk
deriving DecidableEq

def TokenGenerator.generate (_ : TokenGenerator) (ts : Int) (key : Key) : Token :=
  { ts := ts, key := key }

/-- `i64::min_value()`, the initial value of the timestamp tracker. -/
def i64_min : Int := -(2 ^ 63)

/-! ### Protocol envelope -/

/-- `ReadQuery`: a request to read a specific key. -/
inductive ReadQuery where
  | Normal (target : NodeIndex × Nat) (keys : List Key) (block : Bool)
  | WithToken (target : NodeIndex × Nat) (keys : List Key)
  | Size (target : NodeIndex × Nat)
deriving DecidableEq

deriving instance DecidableEq for Except

/-- `ReadReply`: the contents of a specific key, mirroring `ReadQuery`. -/
inductive ReadReply where
  | Normal (res : Except Unit (List Datas))
  | WithToken (res : Except Unit (List (Datas × Token)))
  | Size (n : Nat)
deriving DecidableEq

/-- `LocalOrNot<T>`: the dual-mode payload wrapper. The `Local` variant carries a
`LocalBypass`-boxed value (the box is modelled as the value itself); the `Not`
variant carries the value destined for serialization. -/
inductive LocalOrNot (T : Type) where
  | Local (t : T)
  | Not (t : T)
deriving DecidableEq

def LocalOrNot.is_local {T : Type} : LocalOrNot T → Bool
  | .Local _ => true
  | .Not _ => false

def LocalOrNot.make {T : Type} (t : T) (loc : Bool) : LocalOrNot T :=
  if loc then .Local t else .Not t

def LocalOrNot.take {T : Type} : LocalOrNot T → T
  | .Local l => l
  | .Not t => t

/-! ### Remote view client -/

/-- Behaviour of the per-shard serving endpoints: shard index and request
envelope to reply envelope. This stands for the `Vec<GetterRpc>` connections
plus the remote reader; `send` on connection `i` is `net i`. -/
abbrev Net := Nat → LocalOrNot ReadQuery → LocalOrNot ReadReply

/-- Modelled from the spec: the Shard Router `shard_of(key, shard_count) -> index`
(`dataflow::shard_by`, external to this crate slice): a pure deterministic
hash-based bucketing whose result lies in `[0, shard_count)`. -/
abbrev ShardBy := DataType → Nat → Nat

/-- `RemoteGetter`: the remote view client. `shards` is the number of per-shard
connections; `isLocal i` is connection `i`'s locality flag (`RpcClient::is_local`).
The connections' behaviour itself is passed to each operation as a `Net`. -/
structure RemoteGetter where
  node : NodeIndex
  columns : List String
  shards : Nat
  isLocal : Nat → Bool

/-- The `shard_queries` bucketing loop of `multi_lookup` /
`transactional_multi_lookup`: starting from `vec![Vec::new(); shards]`, each key
is pushed onto the bucket at index `shard_by(&key[0], shards)`. (The source
indexes `key[0]` under a prior assertion that every key has length one, and an
out-of-range bucket index is a fatal index error there; here `List.set` leaves
the buckets unchanged in that never-reached case.) -/
def shard_queries (shard_by : ShardBy) (shards : Nat) (keys : List Key) :
    List (List Key) :=
  keys.foldl
    (fun qs key =>
      let shard := shard_by (key.headD 0) shards
      qs.set shard (qs.getD shard [] ++ [key]))
    (List.replicate shards [])

/-- The fan-out loop of the multi-shard branch of `multi_lookup`: for each
bucket `(shardi, keys)` in order, send a `Normal` query to shard `shardi`,
collect `Ok` row groups in order, record an error flag on `Err` replies and
keep going. The first component is `none` when a reply of the wrong kind
arrives (the source's unreachable-variant fatal error); the second component is
the trace of queries sent. -/
def runNormalQueries (g : RemoteGetter) (net : Net) (block : Bool) :
    List (Nat × List Key) → Option (Bool × List Datas) × List (Nat × ReadQuery)
  | [] => (some (false, []), [])
  | b :: rest =>
    let q := ReadQuery.Normal (g.node, b.1) b.2 block
    match (net b.1 (LocalOrNot.make q (g.isLocal b.1))).take with
    | ReadReply.Normal (Except.ok rs) =>
      let r := runNormalQueries g net block rest
      (r.1.map (fun p => (p.1, rs ++ p.2)), (b.1, q) :: r.2)
    | ReadReply.Normal (Except.error _) =>
      let r := runNormalQueries g net block rest
      (r.1.map (fun p => (true, p.2)), (b.1, q) :: r.2)
    | _ => (none, [(b.1, q)])

/-- `RemoteGetter::multi_lookup(keys, block)`. Single-shard: one `Normal` query
with all keys to shard 0. Multi-shard: assert every key is single-`Value`,
bucket keys with the shard router, query only the non-empty buckets in
ascending shard order, concatenate `Ok` reply groups, and report `Err(())` if
any queried shard replied `Err`. First component `none` models the source's
fatal paths (failed assertion or wrong reply kind); the second component is the
trace of queries sent. -/
def RemoteGetter.multi_lookup (g : RemoteGetter) (net : Net) (shard_by : ShardBy)
    (keys : List Key) (block : Bool) :
    Option (Except Unit (List Datas)) × List (Nat × ReadQuery) :=
  if g.shards = 1 then
    let q := ReadQuery.Normal (g.node, 0) keys block
    match (net 0 (LocalOrNot.make q (g.isLocal 0))).take with
    | ReadReply.Normal rows => (some rows, [(0, q)])
    | _ => (none, [(0, q)])
  else
    if keys.all (fun k => k.length == 1) then
      let buckets :=
        (shard_queries shard_by g.shards keys).enum.filter (fun p => !p.2.isEmpty)
      let r := runNormalQueries g net block buckets
      match r.1 with
      | some (err, rows) =>
        (some (if err then Except.error () else Except.ok rows), r.2)
      | none => (none, r.2)
    else (none, [])

/-- The fan-out loop of the multi-shard branch of `transactional_multi_lookup`:
identical shape to `runNormalQueries`, with `WithToken` queries and replies. -/
def runTokenQueries (g : RemoteGetter) (net : Net) :
    List (Nat × List Key) →
      Option (Bool × List (Datas × Token)) × List (Nat × ReadQuery)
  | [] => (some (false, []), [])
  | b :: rest =>
    let q := ReadQuery.WithToken (g.node, b.1) b.2
    match (net b.1 (LocalOrNot.make q (g.isLocal b.1))).take with
    | ReadReply.WithToken (Except.ok rs) =>
      let r := runTokenQueries g net rest
      (r.1.map (fun p => (p.1, rs ++ p.2)), (b.1, q) :: r.2)
    | ReadReply.WithToken (Except.error _) =>
      let r := runTokenQueries g net rest
      (r.1.map (fun p => (true, p.2)), (b.1, q) :: r.2)
    | _ => (none, [(b.1, q)])

/-- `RemoteGetter::transactional_multi_lookup(keys)`. Single-shard: one
`WithToken` query to shard 0. Multi-shard: same bucketing as `multi_lookup`,
but the source iterates over `shard_queries.into_iter().enumerate()` with no
non-empty filter, so a `WithToken` query is sent to every shard, empty bucket
or not. -/
def RemoteGetter.transactional_multi_lookup (g : RemoteGetter) (net : Net)
    (shard_by : ShardBy) (keys : List Key) :
    Option (Except Unit (List (Datas × Token))) × List (Nat × ReadQuery) :=
  if g.shards = 1 then
    let q := ReadQuery.WithToken (g.node, 0) keys
    match (net 0 (LocalOrNot.make q (g.isLocal 0))).take with
    | ReadReply.WithToken rows => (some rows, [(0, q)])
    | _ => (none, [(0, q)])
  else
    if keys.all (fun k => k.length == 1) then
      let buckets := (shard_queries shard_by g.shards keys).enum
      let r := runTokenQueries g net buckets
      match r.1 with
      | some (err, rows) =>
        (some (if err then Except.error () else Except.ok rows), r.2)
      | none => (none, r.2)
    else (none, [])

/-- The fold of the multi-shard branch of `RemoteGetter::len`: send a `Size`
query to each listed shard with its own index as target and sum the replies. -/
def runSizeQueries (g : RemoteGetter) (net : Net) :
    List Nat → Option Nat × List (Nat × ReadQuery)
  | [] => (some 0, [])
  | shardi :: rest =>
    let q := ReadQuery.Size (g.node, shardi)
    match (net shardi (LocalOrNot.make q (g.isLocal shardi))).take with
    | ReadReply.Size rows =>
      let r := runSizeQueries g net rest
      (r.1.map (fun acc => rows + acc), (shardi, q) :: r.2)
    | _ => (none, [(shardi, q)])

/-- `RemoteGetter::len()`: single-shard issues one `Size` query to shard 0;
multi-shard folds a `Size` query over shard indices `0..shards`, summing the
counts. Always `Ok` when no fatal path is hit (source returns
`Result<usize, ()>` but never constructs `Err`). -/
def RemoteGetter.len (g : RemoteGetter) (net : Net) :
    Option (Except Unit Nat) × List (Nat × ReadQuery) :=
  if g.shards = 1 then
    let q := ReadQuery.Size (g.node, 0)
    match (net 0 (LocalOrNot.make q (g.isLocal 0))).take with
    | ReadReply.Size rows => (some (Except.ok rows), [(0, q)])
    | _ => (none, [(0, q)])
  else
    let r := runSizeQueries g net (List.range g.shards)
    (r.1.map Except.ok, r.2)

/-- `RemoteGetter::lookup(key, block)`: `multi_lookup(vec![key], block)` with
`rs.into_iter().next().unwrap()` applied to the `Ok` payload (the `unwrap` of
an empty result list is a fatal path, modelled by `none`). -/
def RemoteGetter.lookup (g : RemoteGetter) (net : Net) (shard_by : ShardBy)
    (key : Key) (block : Bool) :
    Option (Except Unit Datas) × List (Nat × ReadQuery) :=
  let r := RemoteGetter.multi_lookup g net shard_by [key] block
  (r.1.bind (fun res =>
    match res with
    | Except.ok rs => rs.head?.map Except.ok
    | Except.error e => some (Except.error e)), r.2)

/-- `RemoteGetter::transactional_lookup(key)`:
`transactional_multi_lookup(vec![key])` with the single first pair extracted. -/
def RemoteGetter.transactional_lookup (g : RemoteGetter) (net : Net)
    (shard_by : ShardBy) (key : Key) :
    Option (Except Unit (Datas × Token)) × List (Nat × ReadQuery) :=
  let r := RemoteGetter.transactional_multi_lookup g net shard_by [key]
  (r.1.bind (fun res =>
    match res with
    | Except.ok rs => rs.head?.map Except.ok
    | Except.error e => some (Except.error e)), r.2)

/-! ### Local view client -/

/-- One backlog probe outcome, before the caller transform: `Err(())` when the
view is unavailable, otherwise the optional raw row set for the key (absent
when the key has no materialized entry) and the observed timestamp. -/
abbrev RawProbe := Except Unit (Option (List Row) × Int)

/-- Modelled from the spec: the external backlog capability
`find_and(key, transform, block) -> Result<(T, Timestamp), Unavailable>`. It
applies the caller's transform to the rows when present and forwards the block
flag to the backlog (the blocking itself is owned by the backlog). -/
def ReadHandle.find_and {α : Type} (f : List Row → α) (_block : Bool)
    (probe : RawProbe) : Except Unit (Option α × Int) :=
  probe.map (fun p => (p.1.map f, p.2))

/-- The row transform used by `Getter::lookup` and `Getter::transactional_lookup`:
deep-clone every value out of internal storage. -/
def deepCloneRows (rs : List Row) : Datas :=
  rs.map (fun r => r.map DataType.deep_clone)

/-- `Getter`: the local view client. The backlog `handle` is external; its probe
outcomes are passed explicitly to each operation. -/
structure Getter where
  generator : Option TokenGenerator
  last_ts : Int
deriving DecidableEq

/-- `Getter::new`: the backlog-handle registration logic is external to this
embedding; the fields relevant here are the token generator taken from the view
(present iff the view is transactional) and `last_ts` initialized to
`i64::min_value()`. -/
def Getter.new (generator : Option TokenGenerator) : Getter :=
  { generator := generator, last_ts := i64_min }

/-- `Getter::supports_transactions()`. -/
def Getter.supports_transactions (s : Getter) : Bool :=
  s.generator.isSome

/-- `Getter::lookup_map(q, f, block)`: probe the backlog and keep the
transformed optional result, dropping the timestamp. -/
def Getter.lookup_map {α : Type} (_s : Getter) (_q : Key) (f : List Row → α)
    (block : Bool) (probe : RawProbe) : Except Unit (Option α) :=
  (ReadHandle.find_and f block probe).map (fun r => r.1)

/-- `Getter::lookup(q, block)`: `lookup_map` with the deep-clone transform,
absent keys mapped to the empty row set (`unwrap_or_else(Vec::new)`). -/
def Getter.lookup (s : Getter) (q : Key) (block : Bool) (probe : RawProbe) :
    Except Unit Datas :=
  (Getter.lookup_map s q deepCloneRows block probe).map (fun r => r.getD [])

/-- The retry loop of `Getter::transactional_lookup`, consuming successive
backlog probe outcomes (each obtained with blocking enabled): a success whose
timestamp is strictly below `last_ts` is discarded and the loop retries; an
acceptable success updates the tracker to the observed timestamp, generates a
token for `(timestamp, key)` and returns; an error breaks out immediately.
Returns (result — `none` when the probes ran out with the loop still going —,
final tracker value, number of probes consumed). -/
def Getter.transactional_loop (g : TokenGenerator) (q : Key) (last_ts : Int) :
    List RawProbe → Option (Except Unit (Datas × Token)) × Int × Nat
  | [] => (none, last_ts, 0)
  | probe :: rest =>
    match ReadHandle.find_and deepCloneRows true probe with
    | Except.ok (res, ts) =>
      if ts < last_ts then
        let r := Getter.transactional_loop g q last_ts rest
        (r.1, r.2.1, r.2.2 + 1)
      else
        (some (Except.ok (res.getD [], g.generate ts q)), ts, 1)
    | Except.error e => (some (Except.error e), last_ts, 1)

/-- `Getter::transactional_lookup(q)`: `Err(())` immediately when no token
generator is bound (no probe consumed, tracker untouched); otherwise run the
retry loop from the current tracker value and store the final tracker value
back into the instance. Returns (result, updated instance, probes consumed). -/
def Getter.transactional_lookup (s : Getter) (q : Key)
    (probes : List RawProbe) :
    Option (Except Unit (Datas × Token)) × Getter × Nat :=
  match s.generator with
  | none => (some (Except.error ()), s, 0)
  | some g =>
    let r := Getter.transactional_loop g q s.last_ts probes
    (r.1, { s with last_ts := r.2.1 }, r.2.2)

/-- A sequence of `transactional_lookup` calls on one instance, each call given
its key and its backlog probe outcomes; returns the final instance and the
per-call results. -/
def Getter.runTransactions (s : Getter) :
    List (Key × List RawProbe) →
      Getter × List (Option (Except Unit (Datas × Token)))
  | [] => (s, [])
  | c :: rest =>
    let r := Getter.transactional_lookup s c.1 c.2
    let rr := Getter.runTransactions r.2.1 rest
    (rr.1, r.1 :: rr.2)

/-- The timestamps carried by the successful results of a call sequence, in
call order. -/
def acceptedTs : List (Option (Except Unit (Datas × Token))) → List Int
  | [] => []
  | some (Except.ok p) :: rest => p.2.ts :: acceptedTs rest
  | _ :: rest => acceptedTs rest

/-! ### Specification-side vocabulary for the sharded fan-out

`bucket` is the spec's description of key bucketing — the keys whose sole value
the shard router sends to shard `i`, in original key order — and
`nonEmptyShards` the ascending list of shards holding at least one key. The
lemmas below relate the source's imperative bucketing loop to them. -/

def bucket (sb : ShardBy) (n : Nat) (keys : List Key) (i : Nat) : List Key :=
  keys.filter (fun k => sb (k.headD 0) n == i)

def nonEmptyShards (sb : ShardBy) (n : Nat) (keys : List Key) : List Nat :=
  (List.range n).filter (fun i => !(bucket sb n keys i).isEmpty)

def isErr {e a : Type} : Except e a → Bool
  | Except.error _ => true
  | Except.ok _ => false

def okRows {e a : Type} : Except e (List a) → List a
  | Except.error _ => []
  | Except.ok rs => rs

theorem mapRange_set {α : Type} (n j : Nat) (f : Nat → α) (v : α) (hj : j < n) :
    ((List.range n).map f).set j v
      = (List.range n).map (fun i => if i = j then v else f i) := by
  apply List.ext_getElem?
  intro m
  by_cases hm : m < n
  · by_cases hmj : m = j
    · subst hmj
      rw [List.getElem?_set_self', List.getElem?_map, List.getElem?_map,
        List.getElem?_range hm]
      simp
    · rw [List.getElem?_set_ne (by omega), List.getElem?_map, List.getElem?_map,
        List.getElem?_range hm]
      simp [hmj]
  · rw [List.getElem?_set_ne (by omega)]
    rw [List.getElem?_map, List.getElem?_map]
    rw [List.getElem?_eq_none (by simpa using (by omega : n ≤ m))]
    rfl

theorem mapRange_getD {α : Type} (n j : Nat) (f : Nat → α) (d : α) (hj : j < n) :
    ((List.range n).map f).getD j d = f j := by
  rw [List.getD_eq_getElem?_getD, List.getElem?_map, List.getElem?_range hj]
  rfl

/-- The imperative bucketing loop equals the per-shard filter of the key list,
provided the router keeps every key's bucket index in range (spec invariant 1). -/
theorem shard_queries_eq (sb : ShardBy) (n : Nat) (keys : List Key)
    (hr : ∀ k ∈ keys, sb (k.headD 0) n < n) :
    shard_queries sb n keys = (List.range n).map (bucket sb n keys) := by
  induction keys using List.reverseRecOn with
  | nil =>
    show List.replicate n [] = _
    have : bucket sb n [] = fun _ => ([] : List Key) := by
      funext i; rfl
    rw [this, List.map_const', List.length_range]
  | append_singleton ks k ih =>
    have hks : ∀ k2 ∈ ks, sb (k2.headD 0) n < n := fun k2 hk2 => hr k2 (by simp [hk2])
    have hk : sb (k.headD 0) n < n := hr k (by simp)
    rw [shard_queries, List.foldl_append]
    rw [show (List.foldl _ _ ks) = shard_queries sb n ks from rfl, ih hks]
    simp only [List.foldl_cons, List.foldl_nil]
    rw [mapRange_getD _ _ _ _ hk, mapRange_set _ _ _ _ hk]
    apply List.map_congr_left
    intro i _
    simp only [bucket, List.filter_append, List.filter_singleton]
    by_cases hij : i = sb (List.headD k 0) n
    · subst hij
      simp
    · rw [if_neg (by omega)]
      have hb : (sb (List.headD k 0) n == i) = false :=
        beq_eq_false_iff_ne.mpr (fun h => hij h.symm)
      simp only [hb]
      simp

theorem runNormalQueries_eq (g : RemoteGetter) (net : Net) (block : Bool)
    (resp : Nat → List Key → Except Unit (List Datas))
    (bs : List (Nat × List Key))
    (hnet : ∀ b ∈ bs,
      (net b.1 (LocalOrNot.make (ReadQuery.Normal (g.node, b.1) b.2 block)
        (g.isLocal b.1))).take = ReadReply.Normal (resp b.1 b.2)) :
    runNormalQueries g net block bs
      = (some (bs.any (fun b => isErr (resp b.1 b.2)),
               (bs.map (fun b => okRows (resp b.1 b.2))).flatten),
         bs.map (fun b => (b.1, ReadQuery.Normal (g.node, b.1) b.2 block))) := by
  induction bs with
  | nil => rfl
  | cons b rest ih =>
    have hb := hnet b (by simp)
    have hrest : ∀ b2 ∈ rest, _ := fun b2 hb2 => hnet b2 (by simp [hb2])
    rw [runNormalQueries]
    rw [hb]
    cases hresp : resp b.1 b.2 with
    | ok rs =>
      simp only [ih hrest]
      simp [isErr, okRows, hresp]
    | error e =>
      simp only [ih hrest]
      simp [isErr, okRows, hresp]

theorem runTokenQueries_eq (g : RemoteGetter) (net : Net)
    (resp : Nat → List Key → Except Unit (List (Datas × Token)))
    (bs : List (Nat × List Key))
    (hnet : ∀ b ∈ bs,
      (net b.1 (LocalOrNot.make (ReadQuery.WithToken (g.node, b.1) b.2)
        (g.isLocal b.1))).take = ReadReply.WithToken (resp b.1 b.2)) :
    runTokenQueries g net bs
      = (some (bs.any (fun b => isErr (resp b.1 b.2)),
               (bs.map (fun b => okRows (resp b.1 b.2))).flatten),
         bs.map (fun b => (b.1, ReadQuery.WithToken (g.node, b.1) b.2))) := by
  induction bs with
  | nil => rfl
  | cons b rest ih =>
    have hb := hnet b (by simp)
    have hrest : ∀ b2 ∈ rest, _ := fun b2 hb2 => hnet b2 (by simp [hb2])
    rw [runTokenQueries]
    rw [hb]
    cases hresp : resp b.1 b.2 with
    | ok rs =>
      simp only [ih hrest]
      simp [isErr, okRows, hresp]
    | error e =>
      simp only [ih hrest]
      simp [isErr, okRows, hresp]

theorem runSizeQueries_eq (g : RemoteGetter) (net : Net) (sz : Nat → Nat)
    (l : List Nat)
    (hnet : ∀ i ∈ l,
      (net i (LocalOrNot.make (ReadQuery.Size (g.node, i))
        (g.isLocal i))).take = ReadReply.Size (sz i)) :
    runSizeQueries g net l
      = (some ((l.map sz).sum),
         l.map (fun i => (i, ReadQuery.Size (g.node, i)))) := by
  induction l with
  | nil => rfl
  | cons i rest ih =>
    have hi := hnet i (by simp)
    have hrest : ∀ i2 ∈ rest, _ := fun i2 hi2 => hnet i2 (by simp [hi2])
    rw [runSizeQueries]
    rw [hi]
    simp only [ih hrest]
    simp

theorem zip_self_map {a b : Type} (g : a → b) :
    (l : List a) → l.zip (l.map g) = l.map (fun x => (x, g x))
  | [] => rfl
  | x :: xs => by simp [zip_self_map g xs]

/-- The enumerated bucket list of the multi-shard branches, as index-bucket
pairs in ascending shard order. -/
theorem enum_buckets (sb : ShardBy) (n : Nat) (keys : List Key)
    (hr : ∀ k ∈ keys, sb (k.headD 0) n < n) :
    (shard_queries sb n keys).enum
      = (List.range n).map (fun i => (i, bucket sb n keys i)) := by
  rw [shard_queries_eq sb n keys hr, List.enum_eq_zip_range]
  rw [List.length_map, List.length_range]
  rw [zip_self_map]

/-- The filtered bucket list used by `multi_lookup`: exactly the shards with a
non-empty bucket, in ascending shard order. -/
theorem enum_buckets_filtered (sb : ShardBy) (n : Nat) (keys : List Key)
    (hr : ∀ k ∈ keys, sb (k.headD 0) n < n) :
    (shard_queries sb n keys).enum.filter (fun p => !p.2.isEmpty)
      = (nonEmptyShards sb n keys).map (fun i => (i, bucket sb n keys i)) := by
  rw [enum_buckets sb n keys hr, List.filter_map]
  rfl

/-- Characterization of the multi-shard branch of `multi_lookup` against
shard endpoints replying `Normal` payloads described by `resp`. -/
theorem multi_lookup_sharded_eq (g : RemoteGetter) (net : Net) (sb : ShardBy)
    (keys : List Key) (block : Bool)
    (resp : Nat → List Key → Except Unit (List Datas))
    (hm : 2 ≤ g.shards)
    (hk : ∀ k ∈ keys, k.length = 1)
    (hr : ∀ k ∈ keys, sb (k.headD 0) g.shards < g.shards)
    (hnet : ∀ i ks,
      (net i (LocalOrNot.make (ReadQuery.Normal (g.node, i) ks block)
        (g.isLocal i))).take = ReadReply.Normal (resp i ks)) :
    RemoteGetter.multi_lookup g net sb keys block
      = (some (if (nonEmptyShards sb g.shards keys).any
                  (fun i => isErr (resp i (bucket sb g.shards keys i)))
               then Except.error ()
               else Except.ok (((nonEmptyShards sb g.shards keys).map
                 (fun i => okRows (resp i (bucket sb g.shards keys i)))).flatten)),
         (nonEmptyShards sb g.shards keys).map
           (fun i => (i, ReadQuery.Normal (g.node, i)
             (bucket sb g.shards keys i) block))) := by
  rw [RemoteGetter.multi_lookup]
  rw [if_neg (by omega)]
  rw [if_pos (by simpa [List.all_eq_true] using hk)]
  simp only [enum_buckets_filtered sb g.shards keys hr]
  rw [runNormalQueries_eq g net block resp
    ((nonEmptyShards sb g.shards keys).map
      (fun i => (i, bucket sb g.shards keys i)))
    (fun b _ => hnet b.1 b.2)]
  simp [List.map_map, List.any_map, Function.comp]
  rfl

/-- Characterization of the multi-shard branch of `transactional_multi_lookup`:
the same bucketing and error policy, but a `WithToken` query goes to every
shard `0..shards`, empty bucket or not. -/
theorem transactional_multi_lookup_sharded_eq (g : RemoteGetter) (net : Net)
    (sb : ShardBy) (keys : List Key)
    (resp : Nat → List Key → Except Unit (List (Datas × Token)))
    (hm : 2 ≤ g.shards)
    (hk : ∀ k ∈ keys, k.length = 1)
    (hr : ∀ k ∈ keys, sb (k.headD 0) g.shards < g.shards)
    (hnet : ∀ i ks,
      (net i (LocalOrNot.make (ReadQuery.WithToken (g.node, i) ks)
        (g.isLocal i))).take = ReadReply.WithToken (resp i ks)) :
    RemoteGetter.transactional_multi_lookup g net sb keys
      = (some (if (List.range g.shards).any
                  (fun i => isErr (resp i (bucket sb g.shards keys i)))
               then Except.error ()
               else Except.ok (((List.range g.shards).map
                 (fun i => okRows (resp i (bucket sb g.shards keys i)))).flatten)),
         (List.range g.shards).map
           (fun i => (i, ReadQuery.WithToken (g.node, i)
             (bucket sb g.shards keys i)))) := by
  rw [RemoteGetter.transactional_multi_lookup]
  rw [if_neg (by omega)]
  rw [if_pos (by simpa [List.all_eq_true] using hk)]
  simp only [enum_buckets sb g.shards keys hr]
  rw [runTokenQueries_eq g net resp
    ((List.range g.shards).map (fun i => (i, bucket sb g.shards keys i)))
    (fun b _ => hnet b.1 b.2)]
  simp [List.map_map, List.any_map, Function.comp]
  rfl


theorem transactional_loop_le (g : TokenGenerator) (q : Key) (l : Int) :
    (probes : List RawProbe) → l ≤ (Getter.transactional_loop g q l probes).2.1
  | [] => le_refl l
  | probe :: rest => by
    cases probe with
    | ok p =>
      obtain ⟨res, ts⟩ := p
      by_cases h : ts < l
      · have ih := transactional_loop_le g q l rest
        simp only [Getter.transactional_loop, ReadHandle.find_and, Except.map]
        rw [if_pos h]
        exact ih
      · simp only [Getter.transactional_loop, ReadHandle.find_and, Except.map]
        rw [if_neg h]
        show l ≤ ts
        omega
    | error e =>
      simp only [Getter.transactional_loop, ReadHandle.find_and, Except.map]
      exact le_refl l

theorem transactional_loop_ok_ts (g : TokenGenerator) (q : Key) (l : Int) :
    (probes : List RawProbe) → ∀ rows tok,
      (Getter.transactional_loop g q l probes).1 = some (Except.ok (rows, tok)) →
      tok.ts = (Getter.transactional_loop g q l probes).2.1
  | [], rows, tok, h => by simp [Getter.transactional_loop] at h
  | probe :: rest, rows, tok, h => by
    cases probe with
    | ok p =>
      obtain ⟨res, ts⟩ := p
      by_cases hlt : ts < l
      · have ih := transactional_loop_ok_ts g q l rest rows tok
        simp only [Getter.transactional_loop, ReadHandle.find_and, Except.map] at h ⊢
        rw [if_pos hlt] at h ⊢
        exact ih h
      · simp only [Getter.transactional_loop, ReadHandle.find_and, Except.map] at h ⊢
        rw [if_neg hlt] at h ⊢
        simp at h
        show tok.ts = ts
        rw [← h.2]
        rfl
    | error e =>
      simp [Getter.transactional_loop, ReadHandle.find_and, Except.map] at h

theorem transactional_loop_stable (g : TokenGenerator) (q : Key) (l : Int) :
    (probes : List RawProbe) →
      (∀ rows tok,
        (Getter.transactional_loop g q l probes).1 ≠ some (Except.ok (rows, tok))) →
      (Getter.transactional_loop g q l probes).2.1 = l
  | [], _ => rfl
  | probe :: rest, h => by
    cases probe with
    | ok p =>
      obtain ⟨res, ts⟩ := p
      by_cases hlt : ts < l
      · have ih := transactional_loop_stable g q l rest
        simp only [Getter.transactional_loop, ReadHandle.find_and, Except.map] at h ⊢
        rw [if_pos hlt] at h ⊢
        exact ih h
      · exfalso
        apply h ((res.map deepCloneRows).getD []) (g.generate ts q)
        simp only [Getter.transactional_loop, ReadHandle.find_and, Except.map]
        rw [if_neg hlt]
    | error e =>
      simp only [Getter.transactional_loop, ReadHandle.find_and, Except.map]

theorem transactional_lookup_le (s : Getter) (q : Key) (probes : List RawProbe) :
    s.last_ts ≤ ((s.transactional_lookup q probes).2.1).last_ts := by
  rcases hg : s.generator with _ | g
  · simp only [Getter.transactional_lookup, hg]
    exact le_refl _
  · simp only [Getter.transactional_lookup, hg]
    exact transactional_loop_le g q s.last_ts probes

theorem transactional_lookup_ok_ts (s : Getter) (q : Key) (probes : List RawProbe)
    (rows : Datas) (tok : Token)
    (h : (s.transactional_lookup q probes).1 = some (Except.ok (rows, tok))) :
    tok.ts = ((s.transactional_lookup q probes).2.1).last_ts := by
  rcases hg : s.generator with _ | g
  · simp only [Getter.transactional_lookup, hg] at h
    simp at h
  · simp only [Getter.transactional_lookup, hg] at h ⊢
    exact transactional_loop_ok_ts g q s.last_ts probes rows tok h

theorem transactional_lookup_stable (s : Getter) (q : Key) (probes : List RawProbe)
    (h : ∀ rows tok,
      (s.transactional_lookup q probes).1 ≠ some (Except.ok (rows, tok))) :
    ((s.transactional_lookup q probes).2.1).last_ts = s.last_ts := by
  rcases hg : s.generator with _ | g
  · simp only [Getter.transactional_lookup, hg]
  · simp only [Getter.transactional_lookup, hg] at h ⊢
    exact transactional_loop_stable g q s.last_ts probes h

theorem runTransactions_chain (calls : List (Key × List RawProbe)) :
    ∀ s : Getter,
      List.Chain' (fun a b => a ≤ b)
        (s.last_ts :: acceptedTs (s.runTransactions calls).2) := by
  induction calls with
  | nil => intro s; simp [Getter.runTransactions, acceptedTs]
  | cons c rest ih =>
    intro s
    rw [Getter.runTransactions]
    rcases hres : (s.transactional_lookup c.1 c.2).1 with _ | res
    · rw [show acceptedTs (none :: (Getter.runTransactions (s.transactional_lookup c.1 c.2).2.1 rest).2)
          = acceptedTs (Getter.runTransactions (s.transactional_lookup c.1 c.2).2.1 rest).2 from rfl]
      have hst := transactional_lookup_stable s c.1 c.2
        (fun rows tok hc => by rw [hres] at hc; cases hc)
      have := ih (s.transactional_lookup c.1 c.2).2.1
      rw [hst] at this
      exact this
    · cases res with
      | error e =>
        rw [show acceptedTs (some (Except.error e) :: (Getter.runTransactions (s.transactional_lookup c.1 c.2).2.1 rest).2)
            = acceptedTs (Getter.runTransactions (s.transactional_lookup c.1 c.2).2.1 rest).2 from rfl]
        have hst := transactional_lookup_stable s c.1 c.2
          (fun rows tok hc => by rw [hres] at hc; cases hc)
        have := ih (s.transactional_lookup c.1 c.2).2.1
        rw [hst] at this
        exact this
      | ok p =>
        rw [show acceptedTs (some (Except.ok p) :: (Getter.runTransactions (s.transactional_lookup c.1 c.2).2.1 rest).2)
            = p.2.ts :: acceptedTs (Getter.runTransactions (s.transactional_lookup c.1 c.2).2.1 rest).2 from rfl]
        rw [List.chain'_cons]
        constructor
        · have hok := transactional_lookup_ok_ts s c.1 c.2 p.1 p.2 (by rw [hres])
          have hle := transactional_lookup_le s c.1 c.2
          omega
        · have hok := transactional_lookup_ok_ts s c.1 c.2 p.1 p.2 (by rw [hres])
          have := ih (s.transactional_lookup c.1 c.2).2.1
          rw [← hok] at this
          exact this


/-! ### Concrete instances used by witnesses and the counterexample -/

def sbEx : ShardBy := fun v n => v % n

def gEx : RemoteGetter :=
  { node := 7, columns := ["c"], shards := 2, isLocal := fun _ => false }

def gEx1 : RemoteGetter :=
  { node := 7, columns := ["c"], shards := 1, isLocal := fun _ => false }

def respEx (i : Nat) (ks : List Key) : List Datas :=
  ks.map (fun k => [i :: k])

def tokRespEx (i : Nat) (ks : List Key) : List (Datas × Token) :=
  ks.map (fun k => ([i :: k], TokenGenerator.mk.generate 0 k))

def netEx : Net := fun i q =>
  LocalOrNot.make
    (match q.take with
     | ReadQuery.Normal _ ks _ => ReadReply.Normal (Except.ok (respEx i ks))
     | ReadQuery.WithToken _ ks => ReadReply.WithToken (Except.ok (tokRespEx i ks))
     | ReadQuery.Size _ => ReadReply.Size (i + 3))
    false

def respErrEx (i : Nat) (ks : List Key) : Except Unit (List Datas) :=
  if i = 1 then Except.error () else Except.ok (respEx i ks)

def netErrEx : Net := fun i q =>
  LocalOrNot.make
    (match q.take with
     | ReadQuery.Normal _ ks _ => ReadReply.Normal (respErrEx i ks)
     | ReadQuery.WithToken _ _ => ReadReply.WithToken (Except.error ())
     | ReadQuery.Size _ => ReadReply.Size 0)
    false

/-! ### Claims -/

/-- C1: a local view client starts with `last_ts = i64::min_value()`; across any
sequence of `transactional_lookup` calls the timestamps of successful results
never strictly decrease; and `last_ts` changes only when a successful,
non-stale observation is accepted, in which case it becomes that observation's
timestamp, never below its previous value. -/
theorem c1_last_ts_monotone (gen : Option TokenGenerator)
    (calls : List (Key × List RawProbe)) (s : Getter) (q : Key)
    (probes : List RawProbe) :
    (Getter.new gen).last_ts = i64_min ∧
    List.Pairwise (fun a b => a ≤ b)
      (acceptedTs ((Getter.new gen).runTransactions calls).2) ∧
    (((s.transactional_lookup q probes).2.1).last_ts = s.last_ts ∨
      ∃ rows tok,
        (s.transactional_lookup q probes).1 = some (Except.ok (rows, tok)) ∧
        ((s.transactional_lookup q probes).2.1).last_ts = tok.ts ∧
        s.last_ts ≤ tok.ts) := by
  refine ⟨rfl, ?chain, ?upd⟩
  case chain =>
    have h := runTransactions_chain calls (Getter.new gen)
    exact List.chain'_iff_pairwise.mp h.tail
  case upd =>
    rcases hres : (s.transactional_lookup q probes).1 with _ | res
    · exact Or.inl (transactional_lookup_stable s q probes
        (fun rows tok hc => by rw [hres] at hc; cases hc))
    · cases res with
      | error e =>
        exact Or.inl (transactional_lookup_stable s q probes
          (fun rows tok hc => by rw [hres] at hc; cases hc))
      | ok p =>
        obtain ⟨rows, tok⟩ := p
        refine Or.inr ⟨rows, tok, rfl, ?_, ?_⟩
        · exact (transactional_lookup_ok_ts s q probes rows tok hres).symm
        · have hok := transactional_lookup_ok_ts s q probes rows tok hres
          have hle := transactional_lookup_le s q probes
          omega

/-- C2: `transactional_lookup` with a bound generator is the retry state
machine over blocking backlog probes: a strictly stale success is discarded and
the loop retries on the remaining probes; an acceptable success sets the
tracker to the observed timestamp and returns the rows with a token generated
for (timestamp, key); a backlog error stops immediately, untouched tracker. -/
theorem c2_transactional_state_machine (g : TokenGenerator) (q : Key)
    (last_ts : Int) (res : Option (List Row)) (ts : Int)
    (rest : List RawProbe) (s : Getter) (probes : List RawProbe) :
    (ts < last_ts →
      Getter.transactional_loop g q last_ts (Except.ok (res, ts) :: rest)
        = ((Getter.transactional_loop g q last_ts rest).1,
           (Getter.transactional_loop g q last_ts rest).2.1,
           (Getter.transactional_loop g q last_ts rest).2.2 + 1)) ∧
    (¬ ts < last_ts →
      Getter.transactional_loop g q last_ts (Except.ok (res, ts) :: rest)
        = (some (Except.ok ((res.map deepCloneRows).getD [], g.generate ts q)),
           ts, 1)) ∧
    (Getter.transactional_loop g q last_ts (Except.error () :: rest)
      = (some (Except.error ()), last_ts, 1)) ∧
    (s.generator = some g →
      s.transactional_lookup q probes
        = ((Getter.transactional_loop g q s.last_ts probes).1,
           { generator := some g,
             last_ts := (Getter.transactional_loop g q s.last_ts probes).2.1 },
           (Getter.transactional_loop g q s.last_ts probes).2.2)) := by
  refine ⟨?stale, ?accept, ?err, ?top⟩
  case stale =>
    intro h
    simp only [Getter.transactional_loop, ReadHandle.find_and, Except.map]
    rw [if_pos h]
  case accept =>
    intro h
    simp only [Getter.transactional_loop, ReadHandle.find_and, Except.map]
    rw [if_neg h]
  case err =>
    simp only [Getter.transactional_loop, ReadHandle.find_and, Except.map]
  case top =>
    intro hg
    simp only [Getter.transactional_lookup, hg]

/-- C2 witness: a stale observation (timestamp 3 below tracker 5) is discarded
and the loop retries on the remaining probes. -/
theorem c2_witness :
    (3 : Int) < 5 ∧
    Getter.transactional_loop TokenGenerator.mk [1] 5
        (Except.ok (some [[2]], 3) :: [Except.ok (some [[2]], 6)])
      = ((Getter.transactional_loop TokenGenerator.mk [1] 5 [Except.ok (some [[2]], 6)]).1,
         (Getter.transactional_loop TokenGenerator.mk [1] 5 [Except.ok (some [[2]], 6)]).2.1,
         (Getter.transactional_loop TokenGenerator.mk [1] 5 [Except.ok (some [[2]], 6)]).2.2 + 1) :=
  ⟨by decide,
   (c2_transactional_state_machine TokenGenerator.mk [1] 5 (some [[2]]) 3
     [Except.ok (some [[2]], 6)] (Getter.new none) []).1 (by decide)⟩

/-- C3: multi-shard `multi_lookup` on single-value keys buckets each key by the
shard router on its sole value, sends exactly one `Normal` query per non-empty
bucket (none to empty buckets), and returns the per-shard reply groups
concatenated in ascending shard order, none dropped or duplicated. -/
theorem c3_multi_lookup_sharded (g : RemoteGetter) (net : Net) (sb : ShardBy)
    (keys : List Key) (block : Bool) (resp : Nat → List Key → List Datas)
    (hm : 2 ≤ g.shards)
    (hk : ∀ k ∈ keys, k.length = 1)
    (hr : ∀ k ∈ keys, sb (k.headD 0) g.shards < g.shards)
    (hnet : ∀ i ks,
      (net i (LocalOrNot.make (ReadQuery.Normal (g.node, i) ks block)
        (g.isLocal i))).take = ReadReply.Normal (Except.ok (resp i ks))) :
    RemoteGetter.multi_lookup g net sb keys block
      = (some (Except.ok (((nonEmptyShards sb g.shards keys).map
            (fun i => resp i (bucket sb g.shards keys i))).flatten)),
         (nonEmptyShards sb g.shards keys).map
           (fun i => (i, ReadQuery.Normal (g.node, i)
             (bucket sb g.shards keys i) block))) := by
  rw [multi_lookup_sharded_eq g net sb keys block
    (fun i ks => Except.ok (resp i ks)) hm hk hr hnet]
  rw [if_neg (by simp [isErr])]
  rfl

/-- C3 witness: two shards, keys 0, 1 and 3 under modulo routing. -/
theorem c3_witness :
    2 ≤ gEx.shards ∧
    RemoteGetter.multi_lookup gEx netEx sbEx [[0], [1], [3]] false
      = (some (Except.ok (((nonEmptyShards sbEx gEx.shards [[0], [1], [3]]).map
            (fun i => respEx i (bucket sbEx gEx.shards [[0], [1], [3]] i))).flatten)),
         (nonEmptyShards sbEx gEx.shards [[0], [1], [3]]).map
           (fun i => (i, ReadQuery.Normal (gEx.node, i)
             (bucket sbEx gEx.shards [[0], [1], [3]] i) false))) :=
  ⟨by decide,
   c3_multi_lookup_sharded gEx netEx sbEx [[0], [1], [3]] false respEx
     (by decide) (by decide) (by decide) (fun i ks => rfl)⟩

/-- C4: in a multi-shard `multi_lookup`, one shard replying `Unavailable` makes
the overall result `Unavailable`, yet a query is still sent to every shard with
matching keys — the failure does not short-circuit the fan-out. -/
theorem c4_unavailable_no_short_circuit (g : RemoteGetter) (net : Net)
    (sb : ShardBy) (keys : List Key) (block : Bool)
    (resp : Nat → List Key → Except Unit (List Datas))
    (hm : 2 ≤ g.shards)
    (hk : ∀ k ∈ keys, k.length = 1)
    (hr : ∀ k ∈ keys, sb (k.headD 0) g.shards < g.shards)
    (hnet : ∀ i ks,
      (net i (LocalOrNot.make (ReadQuery.Normal (g.node, i) ks block)
        (g.isLocal i))).take = ReadReply.Normal (resp i ks))
    (hfail : ∃ i ∈ nonEmptyShards sb g.shards keys,
      resp i (bucket sb g.shards keys i) = Except.error ()) :
    (RemoteGetter.multi_lookup g net sb keys block).1 = some (Except.error ()) ∧
    (RemoteGetter.multi_lookup g net sb keys block).2
      = (nonEmptyShards sb g.shards keys).map
          (fun i => (i, ReadQuery.Normal (g.node, i)
            (bucket sb g.shards keys i) block)) := by
  rcases hfail with ⟨i, hi, hfi⟩
  have hany : (nonEmptyShards sb g.shards keys).any
      (fun j => isErr (resp j (bucket sb g.shards keys j))) = true :=
    List.any_eq_true.mpr ⟨i, hi, by rw [hfi]; rfl⟩
  rw [multi_lookup_sharded_eq g net sb keys block resp hm hk hr hnet]
  rw [hany]
  exact ⟨rfl, rfl⟩

/-- C4 witness: two shards, keys 0 and 1; shard 1 replies `Unavailable`, shard
0 replies normally; both shards are queried and the aggregate is `Err`. -/
theorem c4_witness :
    (∃ i ∈ nonEmptyShards sbEx gEx.shards [[0], [1]],
      respErrEx i (bucket sbEx gEx.shards [[0], [1]] i) = Except.error ()) ∧
    (RemoteGetter.multi_lookup gEx netErrEx sbEx [[0], [1]] true).1
      = some (Except.error ()) ∧
    (RemoteGetter.multi_lookup gEx netErrEx sbEx [[0], [1]] true).2
      = (nonEmptyShards sbEx gEx.shards [[0], [1]]).map
          (fun i => (i, ReadQuery.Normal (gEx.node, i)
            (bucket sbEx gEx.shards [[0], [1]] i) true)) :=
  ⟨by decide,
   c4_unavailable_no_short_circuit gEx netErrEx sbEx [[0], [1]] true respErrEx
     (by decide) (by decide) (by decide) (fun i ks => rfl) (by decide)⟩

/-- C5 counterexample: with two shards and the single key `[0]` (routed to
shard 0, so shard 1's bucket is empty), `transactional_multi_lookup` sends
`WithToken` queries to shards 0 and 1, while `multi_lookup` on the same keys
queries shard 0 only — the two fan-outs are not structurally identical and
`WithToken` queries are not sent only to non-empty buckets. -/
theorem c5_counterexample :
    ¬ ((RemoteGetter.transactional_multi_lookup gEx netEx sbEx [[0]]).2.map Prod.fst
        = (RemoteGetter.multi_lookup gEx netEx sbEx [[0]] true).2.map Prod.fst) := by
  decide

/-- C5 (amended): multi-shard `transactional_multi_lookup` applies the same
key bucketing as `multi_lookup` and the same any-shard-error-yields-overall-
error policy, but it issues one `WithToken` query to every shard `0..shards`
in ascending order — including shards whose bucket is empty — instead of only
the non-empty buckets `multi_lookup` queries. -/
theorem c5_transactional_fanout_amended (g : RemoteGetter) (net : Net)
    (sb : ShardBy) (keys : List Key)
    (resp : Nat → List Key → Except Unit (List (Datas × Token)))
    (hm : 2 ≤ g.shards)
    (hk : ∀ k ∈ keys, k.length = 1)
    (hr : ∀ k ∈ keys, sb (k.headD 0) g.shards < g.shards)
    (hnet : ∀ i ks,
      (net i (LocalOrNot.make (ReadQuery.WithToken (g.node, i) ks)
        (g.isLocal i))).take = ReadReply.WithToken (resp i ks)) :
    RemoteGetter.transactional_multi_lookup g net sb keys
      = (some (if (List.range g.shards).any
                  (fun i => isErr (resp i (bucket sb g.shards keys i)))
               then Except.error ()
               else Except.ok (((List.range g.shards).map
                 (fun i => okRows (resp i (bucket sb g.shards keys i)))).flatten)),
         (List.range g.shards).map
           (fun i => (i, ReadQuery.WithToken (g.node, i)
             (bucket sb g.shards keys i)))) :=
  transactional_multi_lookup_sharded_eq g net sb keys resp hm hk hr hnet

/-- C5 witness: two shards, single key `[0]`; every shard receives a
`WithToken` query, shard 1 with an empty key list. -/
theorem c5_witness :
    2 ≤ gEx.shards ∧
    RemoteGetter.transactional_multi_lookup gEx netEx sbEx [[0]]
      = (some (if (List.range gEx.shards).any
                  (fun i => isErr (Except.ok (tokRespEx i (bucket sbEx gEx.shards [[0]] i))
                    : Except Unit (List (Datas × Token))))
               then Except.error ()
               else Except.ok (((List.range gEx.shards).map
                 (fun i => okRows (Except.ok (tokRespEx i (bucket sbEx gEx.shards [[0]] i))
                   : Except Unit (List (Datas × Token))))).flatten)),
         (List.range gEx.shards).map
           (fun i => (i, ReadQuery.WithToken (gEx.node, i)
             (bucket sbEx gEx.shards [[0]] i)))) :=
  ⟨by decide,
   c5_transactional_fanout_amended gEx netEx sbEx [[0]]
     (fun i ks => Except.ok (tokRespEx i ks))
     (by decide) (by decide) (by decide) (fun i ks => rfl)⟩

/-- C6: `len` on an S-shard client returns the sum of the `Size` replies of all
S shards, each queried with its own shard index as target; with S = 1 the
trace is the single query to shard 0 and the result is that shard's count. -/
theorem c6_len_sum (g : RemoteGetter) (net : Net) (sz : Nat → Nat)
    (hS : 1 ≤ g.shards)
    (hnet : ∀ i, (net i (LocalOrNot.make (ReadQuery.Size (g.node, i))
      (g.isLocal i))).take = ReadReply.Size (sz i)) :
    RemoteGetter.len g net
      = (some (Except.ok (((List.range g.shards).map sz).sum)),
         (List.range g.shards).map (fun i => (i, ReadQuery.Size (g.node, i)))) := by
  by_cases h1 : g.shards = 1
  · rw [RemoteGetter.len, if_pos h1]
    simp only [hnet 0]
    rw [h1]
    simp [List.range_succ]
  · rw [RemoteGetter.len, if_neg h1]
    rw [runSizeQueries_eq g net sz (List.range g.shards) (fun i _ => hnet i)]
    rfl

/-- C6 witness: two shards of sizes 3 and 4; `len` is 7 and both shards are
queried with their own index. -/
theorem c6_witness :
    1 ≤ gEx.shards ∧
    RemoteGetter.len gEx netEx
      = (some (Except.ok (((List.range gEx.shards).map (fun i => i + 3)).sum)),
         (List.range gEx.shards).map (fun i => (i, ReadQuery.Size (gEx.node, i)))) :=
  ⟨by decide, c6_len_sum gEx netEx (fun i => i + 3) (by decide) (fun i => rfl)⟩

/-- C7: constructing the dual-mode wrapper with `make(t, b)` and consuming it
once with `take` yields `t` for either flag, and `is_local` on the constructed
wrapper returns exactly `b`. -/
theorem c7_local_or_not_roundtrip {T : Type} (t : T) (b : Bool) :
    (LocalOrNot.make t b).take = t ∧ (LocalOrNot.make t b).is_local = b := by
  cases b
  · exact ⟨rfl, rfl⟩
  · exact ⟨rfl, rfl⟩

/-- C8: the single-key remote forms are the multi forms on `[key]` with the
first result group extracted; errors propagate unchanged and the query traces
coincide. -/
theorem c8_single_key_forms (g : RemoteGetter) (net : Net) (sb : ShardBy)
    (key : Key) (block : Bool) :
    ((RemoteGetter.lookup g net sb key block).2
      = (RemoteGetter.multi_lookup g net sb [key] block).2) ∧
    (∀ e, (RemoteGetter.multi_lookup g net sb [key] block).1
        = some (Except.error e) →
      (RemoteGetter.lookup g net sb key block).1 = some (Except.error e)) ∧
    (∀ grp gs, (RemoteGetter.multi_lookup g net sb [key] block).1
        = some (Except.ok (grp :: gs)) →
      (RemoteGetter.lookup g net sb key block).1 = some (Except.ok grp)) ∧
    ((RemoteGetter.transactional_lookup g net sb key).2
      = (RemoteGetter.transactional_multi_lookup g net sb [key]).2) ∧
    (∀ e, (RemoteGetter.transactional_multi_lookup g net sb [key]).1
        = some (Except.error e) →
      (RemoteGetter.transactional_lookup g net sb key).1
        = some (Except.error e)) ∧
    (∀ pr prs, (RemoteGetter.transactional_multi_lookup g net sb [key]).1
        = some (Except.ok (pr :: prs)) →
      (RemoteGetter.transactional_lookup g net sb key).1
        = some (Except.ok pr)) := by
  refine ⟨rfl, ?e1, ?k1, rfl, ?e2, ?k2⟩
  case e1 =>
    intro e h
    simp only [RemoteGetter.lookup, h]
    rfl
  case k1 =>
    intro grp gs h
    simp only [RemoteGetter.lookup, h]
    rfl
  case e2 =>
    intro e h
    simp only [RemoteGetter.transactional_lookup, h]
    rfl
  case k2 =>
    intro pr prs h
    simp only [RemoteGetter.transactional_lookup, h]
    rfl

/-- C8 witness: a single-shard client and key `[5]`; `multi_lookup([[5]])`
returns the single group `[[0, 5]]`, and `lookup([5])` extracts exactly it. -/
theorem c8_witness :
    (RemoteGetter.multi_lookup gEx1 netEx sbEx [[5]] true).1
      = some (Except.ok ([[0, 5]] :: [])) ∧
    (RemoteGetter.lookup gEx1 netEx sbEx [5] true).1
      = some (Except.ok [[0, 5]]) :=
  ⟨by decide,
   (c8_single_key_forms gEx1 netEx sbEx [5] true).2.2.1 [[0, 5]] [] (by decide)⟩

/-- C9: `supports_transactions` is true exactly when a token generator is
bound, and `transactional_lookup` without a generator returns `Err(())`
immediately: no probe is consumed and the instance (hence `last_ts`) is
unchanged. -/
theorem c9_supports_transactions (s : Getter) (q : Key)
    (probes : List RawProbe) :
    (s.supports_transactions = true ↔ s.generator.isSome = true) ∧
    (s.generator = none →
      s.transactional_lookup q probes = (some (Except.error ()), s, 0)) := by
  refine ⟨Iff.rfl, ?uv⟩
  case uv =>
    intro hg
    simp only [Getter.transactional_lookup, hg]

/-- C9 witness: a fresh non-transactional instance fails immediately with no
probe consumed, its state returned unchanged. -/
theorem c9_witness :
    (Getter.new none).generator = none ∧
    (Getter.new none).transactional_lookup [1]
        [Except.ok (some [[2]], 3)]
      = (some (Except.error ()), Getter.new none, 0) :=
  ⟨rfl,
   (c9_supports_transactions (Getter.new none) [1]
     [Except.ok (some [[2]], 3)]).2 rfl⟩

/-- C10: a successful probe that finds no materialized entry for the key is
surfaced as `Ok`: `lookup` returns the empty row set, and `transactional_lookup`
(with a generator bound and a non-stale timestamp) returns the empty row set
paired with a freshly generated token. -/
theorem c10_absent_key_ok (s : Getter) (g : TokenGenerator) (q : Key)
    (ts : Int) (block : Bool) (rest : List RawProbe) :
    (Getter.lookup s q block (Except.ok (none, ts)) = Except.ok []) ∧
    (s.generator = some g → ¬ ts < s.last_ts →
      (s.transactional_lookup q (Except.ok (none, ts) :: rest)).1
        = some (Except.ok ([], g.generate ts q))) := by
  refine ⟨rfl, ?tx⟩
  case tx =>
    intro hg hts
    simp only [Getter.transactional_lookup, hg]
    simp only [Getter.transactional_loop, ReadHandle.find_and, Except.map]
    rw [if_neg hts]
    rfl

/-- C10 witness: a fresh transactional instance probing an absent key at
timestamp 3 returns `Ok` with no rows and a token for (3, key). -/
theorem c10_witness :
    (Getter.new (some TokenGenerator.mk)).generator = some TokenGenerator.mk ∧
    ¬ (3 : Int) < (Getter.new (some TokenGenerator.mk)).last_ts ∧
    ((Getter.new (some TokenGenerator.mk)).transactional_lookup [9]
        [Except.ok (none, 3)]).1
      = some (Except.ok ([], TokenGenerator.mk.generate 3 [9])) :=
  ⟨rfl, by decide,
   (c10_absent_key_ok (Getter.new (some TokenGenerator.mk)) TokenGenerator.mk
     [9] 3 true []).2 rfl (by decide)⟩

end Noria
